import Mathlib

/-!
Shallow embedding of the DirectAI analysis core: the feature-extraction
orchestrator (`src/workers/analysis/analysis_service.py`) and the music
theory reasoning engine (`src/workers/analysis/music_theory_analyzer.py`).

Modelling conventions:
* Python floats are modelled as exact rationals (`ℚ`); none of the verified
  properties depends on binary floating-point rounding.
* Python `round` is modelled with Mathlib's `round` (round half away from
  zero at ties); Python rounds half to even, but no verified property
  evaluates `round` at an exact tie, so the two agree on every input that
  matters here.
* Python `%` on integers with a positive modulus agrees with `Int.emod`
  (`%` on `ℤ`), and on nonzero rationals with `a - b * ⌊a / b⌋`.
* Each timeout-bounded call to an external signal primitive is modelled as
  an explicit outcome value (timed out / raised / returned such-and-such
  data), since the primitives themselves are opaque numerics.
-/

namespace DirectAI

/-- The pitch-class names, `NOTE_NAMES` in `MusicTheoryAnalyzer` (split in
two halves here; the value is the usual 12-name chromatic list). -/
def NOTE_NAMES : List String :=
  ["C", "C#", "D", "D#", "E", "F"] ++ ["F#", "G", "G#", "A", "A#", "B"]

/-- A chord observation as produced by `_extract_chords`: a dict with keys
`chord`, `start_time`, `end_time`, `confidence`. -/
structure ChordEvent where
  chord : String
  start_time : ℚ
  end_time : ℚ
  confidence : ℚ
deriving DecidableEq, Repr

/-- One entry of the `roman_numerals` list built by
`_chords_to_roman_numerals`. -/
structure RomanNumeralEvent where
  chord : String
  roman_numeral : String
  scale_degree : ℤ
  start_time : ℚ
  end_time : ℚ
  confidence : ℚ
deriving DecidableEq, Repr

/-- Helper for `pySplit`: split a character list at spaces, dropping empty
fields, accumulating the current word in reverse. -/
def splitWordsAux : List Char → List Char → List (List Char)
  | [], acc => if acc = [] then [] else [acc.reverse]
  | c :: cs, acc =>
    if c = ' ' then
      (if acc = [] then splitWordsAux cs [] else acc.reverse :: splitWordsAux cs [])
    else splitWordsAux cs (c :: acc)

/-- Python `str.split()` (whitespace = space): split into words, dropping
empty fields. -/
def pySplit (s : String) : List String :=
  (splitWordsAux s.data []).map String.mk

/-- Python `c in s` for a single character. -/
def pyContains (s : String) (c : Char) : Bool :=
  s.data.contains c

/-- ASCII lower-casing of one character. -/
def lowerChar (c : Char) : Char :=
  if 'A' ≤ c ∧ c ≤ 'Z' then Char.ofNat (c.toNat + 32) else c

/-- Python `str.lower()` (ASCII). -/
def pyToLower (s : String) : String :=
  String.mk (s.data.map lowerChar)

/-- `_parse_key`: split the key string; two or more fields give
(root, lower-cased mode), anything else defaults to ("C", "major"). -/
def parseKey (key : String) : String × String :=
  let parts := pySplit key
  match parts with
  | p0 :: p1 :: _ => (p0, pyToLower p1)
  | _ => ("C", "major")

/-- `NOTE_NAMES.index(name)` with the surrounding `except ValueError`
defaulting to 0. -/
def noteIndex (name : String) : ℕ :=
  (NOTE_NAMES.findIdx? (fun n => n == name)).getD 0

/-- Root extraction in `_chords_to_roman_numerals`:
`chord_name.split()[0] if ' ' in chord_name else chord_name`.
(`headD name` is never taken on a name that contains a space unless the
name is all spaces, a corner where the Python indexing would raise; no
input considered here is of that form.) -/
def chordRootName (name : String) : String :=
  if pyContains name ' ' then (pySplit name).headD name else name

/-- The 7-entry major-mode Roman numeral table; degrees absent from the
table default to `'I'`. -/
def romanMajor (d : ℤ) : String :=
  if d = 0 then "I" else if d = 2 then "ii" else if d = 4 then "iii"
  else if d = 5 then "IV" else if d = 7 then "V" else if d = 9 then "vi"
  else if d = 11 then "vii°" else "I"

/-- The 7-entry natural-minor Roman numeral table; degrees absent from the
table default to `'i'`. -/
def romanMinor (d : ℤ) : String :=
  if d = 0 then "i" else if d = 2 then "ii°" else if d = 3 then "III"
  else if d = 5 then "iv" else if d = 7 then "v" else if d = 8 then "VI"
  else if d = 10 then "VII" else "i"

/-- `_chords_to_roman_numerals`: map each chord to its Roman numeral event
relative to the key. -/
def chordsToRomanNumerals (chords : List ChordEvent) (key_root key_mode : String) :
    List RomanNumeralEvent :=
  let key_index := noteIndex key_root
  chords.map (fun chord =>
    let chord_root := chordRootName chord.chord
    let chord_index := noteIndex chord_root
    let scale_degree : ℤ := ((chord_index : ℤ) - (key_index : ℤ)) % 12
    let roman := if key_mode = "major" then romanMajor scale_degree
                 else romanMinor scale_degree
    { chord := chord.chord
      roman_numeral := roman
      scale_degree := scale_degree
      start_time := chord.start_time
      end_time := chord.end_time
      confidence := chord.confidence })

/-- One entry of the `functional_harmony` list built by
`_analyze_functional_harmony`. -/
structure FunctionEvent where
  roman_numeral : String
  function : String
  start_time : ℚ
  end_time : ℚ
deriving DecidableEq, Repr

/-- `MAJOR_FUNCTIONS.get(roman, HarmonicFunction.TONIC).value`: the fixed
major-key functional-harmony table with default `tonic`. -/
def majorFunctionOf (r : String) : String :=
  if r = "I" then "tonic"
  else if r = "ii" then "subdominant"
  else if r = "iii" then "tonic_substitute"
  else if r = "IV" then "subdominant"
  else if r = "V" then "dominant"
  else if r = "vi" then "tonic_substitute"
  else if r = "vii°" then "dominant_substitute"
  else "tonic"

/-- `_analyze_functional_harmony`. The `key_mode` argument is accepted but
unused in the source: the lookup always uses the major-key table. -/
def analyzeFunctionalHarmony (roman_numerals : List RomanNumeralEvent)
    (key_mode : String) : List FunctionEvent :=
  roman_numerals.map (fun chord =>
    { roman_numeral := chord.roman_numeral
      function := majorFunctionOf chord.roman_numeral
      start_time := chord.start_time
      end_time := chord.end_time })

/-- `_contains_subsequence`: scan every window of the subsequence's length.
(When the subsequence is longer than the sequence, Python's `range` is
empty; the truncated `Nat` subtraction here instead tests one too-short
window, which can never equal the longer subsequence, so the results
agree.) -/
def containsSubsequence (sequence subsequence : List String) : Bool :=
  (List.range (sequence.length - subsequence.length + 1)).any (fun i =>
    (sequence.drop i).take subsequence.length == subsequence)

/-- The `common_patterns` dict of `_detect_chord_patterns`, in insertion
order. -/
def COMMON_PATTERNS : List (String × List String) :=
  [("I-V-vi-IV", ["I", "V", "vi", "IV"]),
   ("I-IV-V", ["I", "IV", "V"]),
   ("ii-V-I", ["ii", "V", "I"]),
   ("I-vi-IV-V", ["I", "vi", "IV", "V"]),
   ("vi-IV-I-V", ["vi", "IV", "I", "V"]),
   ("I-V-IV", ["I", "V", "IV"])]

/-- `_detect_chord_patterns`: report each fixed pattern that occurs as a
contiguous subsequence of the Roman-numeral strings. -/
def detectChordPatterns (roman_numerals : List RomanNumeralEvent) : List String :=
  let progression := roman_numerals.map (fun c => c.roman_numeral)
  COMMON_PATTERNS.filterMap (fun p =>
    if containsSubsequence progression p.2 then some p.1 else none)

/-- The dict built by `_calculate_harmonic_rhythm` (long path key names;
the `< 2` early return uses shorter key names in the source but carries the
same zero values). -/
structure HarmonicRhythm where
  avg_chord_duration : ℚ
  changes_per_bar : ℚ
  total_chord_changes : ℕ
deriving DecidableEq, Repr

/-- `_calculate_harmonic_rhythm`. -/
def calculateHarmonicRhythm (chords : List ChordEvent) (bpm : ℚ) : HarmonicRhythm :=
  if chords.length < 2 then
    { avg_chord_duration := 0, changes_per_bar := 0, total_chord_changes := chords.length }
  else
    let durations := chords.map (fun c => c.end_time - c.start_time)
    let avg_duration := durations.sum / durations.length
    let seconds_per_bar := (60 / bpm) * 4
    let changes_per_bar := if avg_duration > 0 then seconds_per_bar / avg_duration else 0
    { avg_chord_duration := avg_duration
      changes_per_bar := changes_per_bar
      total_chord_changes := chords.length }

/-- A cadence record from `_detect_cadences`. -/
structure Cadence where
  type : String
  progression : String
  time : ℚ
  strength : ℚ
deriving DecidableEq, Repr

/-- `_calculate_cadence_strength`: fixed strength per cadence type,
default 0.5. -/
def calculateCadenceStrength (cadence_type : String) : ℚ :=
  if cadence_type = "authentic" then 1
  else if cadence_type = "plagal" then 4/5
  else if cadence_type = "deceptive" then 3/5
  else if cadence_type = "half" then 1/2
  else 1/2

/-- The adjacent pairs `(sequence[i], sequence[i+1])` for `i` in
`range(len - 1)`. -/
def adjacentPairs : List α → List (α × α)
  | [] => []
  | [_] => []
  | a :: b :: rest => (a, b) :: adjacentPairs (b :: rest)

/-- The classification step of `_detect_cadences` for one adjacent pair, in
the source's test order: authentic (V→I), plagal (IV→I), half (any→V),
deceptive (V→vi). -/
def classifyCadence (current next_chord : String) : Option String :=
  if current = "V" ∧ next_chord = "I" then some "authentic"
  else if current = "IV" ∧ next_chord = "I" then some "plagal"
  else if next_chord = "V" then some "half"
  else if current = "V" ∧ next_chord = "vi" then some "deceptive"
  else none

/-- `_detect_cadences`: classify every adjacent Roman-numeral pair and
record type, progression string, time of the second chord, and strength. -/
def detectCadences (roman_numerals : List RomanNumeralEvent) : List Cadence :=
  (adjacentPairs roman_numerals).filterMap (fun p =>
    match classifyCadence p.1.roman_numeral p.2.roman_numeral with
    | some cadence_type =>
      some { type := cadence_type
             progression := p.1.roman_numeral ++ "-" ++ p.2.roman_numeral
             time := p.2.start_time
             strength := calculateCadenceStrength cadence_type }
    | none => none)

/-- `_calculate_progression_complexity`: `min(unique/7, 1)`. -/
def calculateProgressionComplexity (roman_numerals : List RomanNumeralEvent) : ℚ :=
  if roman_numerals = [] then 0
  else
    let unique_chords := (roman_numerals.map (fun c => c.roman_numeral)).dedup.length
    min ((unique_chords : ℚ) / 7) 1

/-- The dict returned by `analyze_harmonic_progression`. The
`voice_leading_quality` and `modulations` fields are fixed placeholders in
the source (constant record / empty list) and are elided here; no claim
involves them. -/
structure HarmonicAnalysis where
  key : String
  key_root : String
  key_mode : String
  roman_numerals : List RomanNumeralEvent
  functional_harmony : List FunctionEvent
  common_patterns : List String
  harmonic_rhythm : HarmonicRhythm
  cadences : List Cadence
  progression_complexity : ℚ
deriving DecidableEq, Repr

/-- `analyze_harmonic_progression`. Returns `none` where the source returns
the empty dict `{}`: on an empty chord list, and when
`_calculate_harmonic_rhythm` divides `60.0` by `bpm = 0` (a
`ZeroDivisionError` reaching the top-level handler, possible only when at
least two chords are present). -/
def analyzeHarmonicProgression (chords : List ChordEvent) (key : String)
    (bpm : ℚ) : Option HarmonicAnalysis :=
  if chords = [] then none
  else if bpm = 0 ∧ 2 ≤ chords.length then none
  else
    let km := parseKey key
    let roman_numerals := chordsToRomanNumerals chords km.1 km.2
    some
      { key := key
        key_root := km.1
        key_mode := km.2
        roman_numerals := roman_numerals
        functional_harmony := analyzeFunctionalHarmony roman_numerals km.2
        common_patterns := detectChordPatterns roman_numerals
        harmonic_rhythm := calculateHarmonicRhythm chords bpm
        cadences := detectCadences roman_numerals
        progression_complexity := calculateProgressionComplexity roman_numerals }

/-- A beat record: dict with keys `time`, `position`, `confidence`. -/
structure Beat where
  time : ℚ
  position : ℕ
  confidence : ℚ
deriving DecidableEq, Repr

/-- Python `%` on nonzero floats: `a - b * ⌊a / b⌋` (result has the sign of
the divisor). -/
def pymodQ (a b : ℚ) : ℚ :=
  a - b * ⌊a / b⌋

/-- `_calculate_syncopation`: classify each beat as strong/weak/off-beat
relative to the 4/4 grid derived from the bpm and return the clamped
off-beat fraction. -/
def calculateSyncopation (beats : List Beat) (bpm : ℚ) : ℚ :=
  if beats = [] ∨ bpm = 0 then 0
  else
    let beat_duration := 60 / bpm
    let counts := beats.foldl (fun (ob : ℚ × ℚ) beat =>
      let beat_time := beat.time
      let beat_position := pymodQ beat_time (beat_duration * 4) / beat_duration
      if |beat_position - (round beat_position : ℤ)| < 1/10 then
        let beat_num := (round beat_position) % 4
        if beat_num = 0 ∨ beat_num = 2 then (ob.1 + 1, ob.2)
        else (ob.1 + 1/2, ob.2)
      else (ob.1, ob.2 + 1)) ((0 : ℚ), (0 : ℚ))
    let total := counts.1 + counts.2
    let syncopation_index := if total > 0 then counts.2 / total else 0
    min syncopation_index 1

/-- `_detect_time_signature`: fixed `"4/4"`. -/
def detectTimeSignature (beats : List Beat) (bpm : ℚ) : String :=
  "4/4"

/-- `_detect_polyrhythms`: a stub, always `False`. -/
def detectPolyrhythms (beats : List Beat) : Bool :=
  false

/-- `_calculate_rhythmic_complexity`. The `metric_hierarchy` argument of
the source function is unused in its body and omitted here. -/
def calculateRhythmicComplexity (syncopation note_density : ℚ)
    (polyrhythms : Bool) : ℚ :=
  let complexity := (0 : ℚ) + syncopation * (2/5)
  let normalized_density := min (note_density / 10) 1
  let complexity := complexity + normalized_density * (3/10)
  let complexity := if polyrhythms then complexity + 3/10 else complexity
  min complexity 1

/-- The dict returned by `analyze_rhythmic_complexity`. The
`metric_hierarchy` field (a constant record for the fixed `"4/4"`
signature, unused downstream) is elided; no claim involves it. -/
structure RhythmicAnalysis where
  syncopation_index : ℚ
  time_signature : String
  note_density : ℚ
  polyrhythms_detected : Bool
  complexity_score : ℚ
  bpm : ℚ
  total_beats : ℕ
deriving DecidableEq, Repr

/-- `analyze_rhythmic_complexity`. Returns `none` where the source returns
the empty dict `{}` (empty beat list). -/
def analyzeRhythmicComplexity (beats : List Beat) (bpm duration : ℚ) :
    Option RhythmicAnalysis :=
  if beats = [] then none
  else
    let syncopation := calculateSyncopation beats bpm
    let time_signature := detectTimeSignature beats bpm
    let note_density := if duration > 0 then (beats.length : ℚ) / duration else 0
    let polyrhythms := detectPolyrhythms beats
    some
      { syncopation_index := syncopation
        time_signature := time_signature
        note_density := note_density
        polyrhythms_detected := polyrhythms
        complexity_score := calculateRhythmicComplexity syncopation note_density polyrhythms
        bpm := bpm
        total_beats := beats.length }

/-- One genre template from `_load_genre_patterns`. The
`typical_structure` string is carried for completeness; nothing reads it. -/
structure GenreTemplate where
  name : String
  common_progressions : List String
  bpm_range : ℚ × ℚ
  instrumentation : List String
  rhythmic_complexity : ℚ
  typical_structure : String
deriving DecidableEq, Repr

/-- `_load_genre_patterns`: the six fixed genre templates, in dict
insertion order. -/
def genrePatterns : List GenreTemplate :=
  [{ name := "pop"
     common_progressions := ["I-V-vi-IV", "vi-IV-I-V", "I-IV-V"]
     bpm_range := (100, 130)
     instrumentation := ["drums", "bass", "guitar", "vocals", "synth"]
     rhythmic_complexity := 3/10
     typical_structure := "verse-chorus-verse-chorus-bridge-chorus" },
   { name := "rock"
     common_progressions := ["I-IV-V", "I-V-vi-IV", "I-V-IV"]
     bpm_range := (110, 150)
     instrumentation := ["drums", "bass", "guitar", "vocals"]
     rhythmic_complexity := 2/5
     typical_structure := "intro-verse-chorus-verse-chorus-bridge-chorus-outro" },
   { name := "jazz"
     common_progressions := ["ii-V-I", "I-vi-ii-V"]
     bpm_range := (80, 180)
     instrumentation := ["drums", "bass", "piano", "saxophone"]
     rhythmic_complexity := 7/10
     typical_structure := "head-solo-head" },
   { name := "edm"
     common_progressions := ["I-V-vi-IV", "vi-IV-I-V"]
     bpm_range := (120, 140)
     instrumentation := ["drums", "bass", "synth"]
     rhythmic_complexity := 3/10
     typical_structure := "intro-buildup-drop-verse-buildup-drop-outro" },
   { name := "hip-hop"
     common_progressions := ["i-VI-III-VII", "i-iv-VI-V"]
     bpm_range := (60, 100)
     instrumentation := ["drums", "bass", "vocals"]
     rhythmic_complexity := 1/2
     typical_structure := "intro-verse-hook-verse-hook-bridge-hook-outro" },
   { name := "country"
     common_progressions := ["I-IV-V", "I-V-vi-IV"]
     bpm_range := (90, 130)
     instrumentation := ["drums", "bass", "guitar", "vocals"]
     rhythmic_complexity := 3/10
     typical_structure := "verse-chorus-verse-chorus-bridge-chorus" }]

/-- The per-genre score accumulated by `detect_genre_conventions` (the
human-readable `reasons` strings are elided; no claim involves them). -/
structure GenreScore where
  genre : String
  confidence : ℚ
deriving DecidableEq, Repr

/-- The inputs `detect_genre_conventions` reads from the two analysis
dicts: `common_patterns` if present (`none` models a dict without the
key), and `bpm` / `complexity_score` via `.get` with default 0. -/
structure GenreInputs where
  common_patterns : Option (List String)
  bpm : ℚ
  complexity_score : ℚ
deriving DecidableEq, Repr

/-- The score-accumulation loop body of `detect_genre_conventions` for one
genre template: +0.3 per detected pattern in the template's progression
list, +0.2 for bpm inside the inclusive range, +0.3 × instrumentation
overlap ratio (sets modelled by `dedup`), +0.2 for complexity within 0.2
of the template's expectation; clamped to ≤ 1. -/
def genreScoreOf (inputs : GenreInputs) (instrumentation : List String)
    (conventions : GenreTemplate) : ℚ :=
  let score : ℚ := 0
  let score := match inputs.common_patterns with
    | some patterns =>
      patterns.foldl (fun s pattern =>
        if pattern ∈ conventions.common_progressions then s + 3/10 else s) score
    | none => score
  let score := if conventions.bpm_range.1 ≤ inputs.bpm ∧ inputs.bpm ≤ conventions.bpm_range.2
    then score + 1/5 else score
  let required_instruments := conventions.instrumentation.dedup
  let detected_instruments := instrumentation.dedup
  let instrument_match : ℚ :=
    if required_instruments = [] then 0
    else ((required_instruments.filter (fun i => i ∈ detected_instruments)).length : ℚ) /
      (required_instruments.length : ℚ)
  let score := score + (3/10) * instrument_match
  let complexity_diff := |inputs.complexity_score - conventions.rhythmic_complexity|
  let score := if complexity_diff < 1/5 then score + 1/5 else score
  score

/-- The `genre_scores` dict of `detect_genre_conventions`: one clamped
score per template, in template order. -/
def genreScores (inputs : GenreInputs) (instrumentation : List String) :
    List GenreScore :=
  genrePatterns.map (fun conventions =>
    { genre := conventions.name
      confidence := min (genreScoreOf inputs instrumentation conventions) 1 })

/-- The result of `detect_genre_conventions`. -/
structure GenreResult where
  predicted_genres : List GenreScore
  primary_genre : String
deriving DecidableEq, Repr

/-- Insert a score in front of the first entry with confidence at most its
own. -/
def insertByConfidence (a : GenreScore) : List GenreScore → List GenreScore
  | [] => [a]
  | b :: bs =>
    if b.confidence ≤ a.confidence then a :: b :: bs
    else b :: insertByConfidence a bs

/-- Stable descending sort by confidence (insertion sort), extensionally
equal to Python's stable `sorted(..., key=confidence, reverse=True)`:
entries with equal confidence keep their original relative order. -/
def sortByConfidenceDesc : List GenreScore → List GenreScore
  | [] => []
  | x :: xs => insertByConfidence x (sortByConfidenceDesc xs)

/-- `detect_genre_conventions`: rank the genre scores descending by
confidence (stably, keeping insertion order among ties), report the top
five, and take the highest-ranked genre as primary — `"unknown"` only if
the ranked list itself is empty. -/
def detectGenreConventions (inputs : GenreInputs) (instrumentation : List String) :
    GenreResult :=
  let sorted_genres := sortByConfidenceDesc (genreScores inputs instrumentation)
  { predicted_genres := sorted_genres.take 5
    primary_genre := match sorted_genres with
      | g :: _ => g.genre
      | [] => "unknown" }

/-! ### Feature extraction orchestrator (`analysis_service.py`)

Each bounded call to a librosa primitive is modelled by an outcome value:
either it timed out, raised, or returned data. -/

/-- Python `round(x, 2)` over the rational model. -/
def pyRound2 (x : ℚ) : ℚ :=
  ((round (x * 100) : ℤ) : ℚ) / 100

/-- Python `int(x)`: truncation toward zero. -/
def pyInt (x : ℚ) : ℤ :=
  if x < 0 then ⌈x⌉ else ⌊x⌋

/-- Outcome of the two bounded primitive calls inside `_extract_tempo`. -/
inductive TempoOutcome where
  /-- `librosa.onset.onset_strength` exceeded its 30 s budget. -/
  | onsetTimeout
  /-- `librosa.beat.tempo` exceeded its 30 s budget. -/
  | candidatesTimeout
  /-- some call raised, reaching the top-level handler. -/
  | failure
  /-- `librosa.beat.tempo` returned this candidate list. -/
  | candidates (ts : List ℚ)
deriving DecidableEq, Repr

/-- Candidate selection in `_extract_tempo`: with more than one candidate
prefer the first in [80, 140], else the first candidate; a single
candidate is taken as is; `none` on an empty list (the source's
`tempo_candidates[0]` raises `IndexError` there). -/
def selectTempo : List ℚ → Option ℚ
  | [] => none
  | [t] => some t
  | a :: b :: rest =>
    let tempo_candidates := a :: b :: rest
    let reasonable_candidates := tempo_candidates.filter (fun t => 80 ≤ t ∧ t ≤ 140)
    match reasonable_candidates with
    | r :: _ => some r
    | [] => some a

/-- Octave correction in `_extract_tempo`: above 160, accept the half
tempo if it lands in [60, 140], else the quarter tempo under the same
test, else keep the raw value. -/
def octaveCorrect (bpm : ℚ) : ℚ :=
  if bpm > 160 then
    let bpm_half := bpm / 2
    if 60 ≤ bpm_half ∧ bpm_half ≤ 140 then bpm_half
    else
      let bpm_quarter := bpm / 4
      if 60 ≤ bpm_quarter ∧ bpm_quarter ≤ 140 then bpm_quarter
      else bpm
  else bpm

/-- The final sanity clamp in `_extract_tempo`: outside [60, 180] reset to
120. -/
def clampTempo (bpm : ℚ) : ℚ :=
  if bpm < 60 ∨ bpm > 180 then 120 else bpm

/-- `_extract_tempo`: 120 on either timeout or any raised exception
(including the `IndexError` on an empty candidate list); otherwise select,
octave-correct, clamp, and round to two decimals. -/
def extractTempo : TempoOutcome → ℚ
  | .onsetTimeout => 120
  | .candidatesTimeout => 120
  | .failure => 120
  | .candidates ts =>
    match selectTempo ts with
    | none => 120
    | some bpm => pyRound2 (clampTempo (octaveCorrect bpm))

/-- `k = min(6, max(3, int(duration / 30)))` in `_extract_sections`. -/
def sectionCount (duration : ℚ) : ℤ :=
  min 6 (max 3 (pyInt (duration / 30)))

/-- The fixed cyclic label vocabulary of `_extract_sections`. -/
def SECTION_LABELS : List String :=
  ["intro", "verse", "chorus", "verse", "chorus", "bridge", "chorus", "outro"]

/-- A section record. -/
structure Section where
  label : String
  start_time : ℚ
  end_time : ℚ
  confidence : ℚ
deriving DecidableEq, Repr

/-- The section-building loop of `_extract_sections`: one section per
adjacent pair of boundary times, labelled positionally (default
`"section"`). -/
def sectionsFromBounds (bound_times : List ℚ) (confidence : ℚ) : List Section :=
  (adjacentPairs bound_times).enum.map (fun p =>
    { label := SECTION_LABELS.getD p.1 "section"
      start_time := p.2.1
      end_time := p.2.2
      confidence := confidence })

/-- The fallback boundary times `[i * section_duration for i in
range(num_sections + 1)]` in `_extract_sections`. -/
def fallbackBoundTimes (duration : ℚ) (k : ℤ) : List ℚ :=
  (List.range (k.toNat + 1)).map (fun (i : ℕ) => (i : ℚ) * (duration / (k : ℚ)))

/-- Outcome of the bounded `librosa.segment.agglomerative` call in
`_extract_sections`. -/
inductive SectionOutcome where
  /-- clustering exceeded its 60 s budget. -/
  | timeout
  /-- clustering returned boundaries, already converted to times. -/
  | boundTimes (ts : List ℚ)
  /-- some call raised, reaching the top-level handler. -/
  | failure
deriving DecidableEq, Repr

/-- `_extract_sections`: clustering-derived sections get confidence 0.8;
on timeout, `k` equal time-based sections with confidence 0.5; on any
raised exception, the empty list. -/
def extractSections (outcome : SectionOutcome) (duration : ℚ) : List Section :=
  let k := sectionCount duration
  match outcome with
  | .timeout => sectionsFromBounds (fallbackBoundTimes duration k) (1/2)
  | .boundTimes ts => sectionsFromBounds ts (4/5)
  | .failure => []

/-- The synthetic-beat `while time < duration` loop of `_extract_beats`,
with an explicit fuel bound on the iteration count. -/
def synthBeatsAux (beat_interval duration confidence : ℚ) :
    ℕ → ℚ → ℕ → List Beat
  | 0, _, _ => []
  | fuel + 1, time, position =>
    if time < duration then
      { time := time, position := position, confidence := confidence } ::
        synthBeatsAux beat_interval duration confidence fuel
          (time + beat_interval) (position + 1)
    else []

/-- The synthetic beat grid of `_extract_beats`, starting at time 0 with
position 1. The fuel `⌈duration / beat_interval⌉ + 1` strictly exceeds the
loop's iteration count (the loop runs while `k * beat_interval <
duration`, i.e. at most `⌈duration / beat_interval⌉` times, the interval
`60 / bpm` being positive for every bpm the tempo operation can
produce). -/
def syntheticBeats (bpm duration confidence : ℚ) : List Beat :=
  let beat_interval := 60 / bpm
  synthBeatsAux beat_interval duration confidence
    ((⌈duration / beat_interval⌉).toNat + 1) 0 1

/-- Outcome of the two bounded primitive calls inside `_extract_beats`
(after the tempo sub-procedure). -/
inductive BeatOutcome where
  /-- `librosa.onset.onset_strength` exceeded its 30 s budget. -/
  | onsetTimeout
  /-- `librosa.beat.beat_track` exceeded its 30 s budget. -/
  | trackTimeout
  /-- beat tracking returned frames, already converted to times. -/
  | beatTimes (ts : List ℚ)
  /-- some call raised, reaching the top-level handler. -/
  | failure
deriving DecidableEq, Repr

/-- `_extract_beats`: on either timeout, the synthetic grid with
confidence 0.5; on tracked frames, beats with confidence 0.8 unless the
count strays more than 50 % from `int(bpm * duration / 60)`, in which case
the synthetic grid with confidence 0.6; on any raised exception, the
empty list. -/
def extractBeats (tempo_outcome : TempoOutcome) (outcome : BeatOutcome)
    (duration : ℚ) : List Beat :=
  let corrected_bpm := extractTempo tempo_outcome
  match outcome with
  | .onsetTimeout => syntheticBeats corrected_bpm duration (1/2)
  | .trackTimeout => syntheticBeats corrected_bpm duration (1/2)
  | .beatTimes ts =>
    let beats := ts.enum.map (fun p =>
      { time := p.2, position := p.1 + 1, confidence := 4/5 : Beat })
    let expected_beats := pyInt (corrected_bpm * duration / 60)
    if |((beats.length : ℤ) : ℚ) - (expected_beats : ℚ)| >
        (expected_beats : ℚ) * (1/2) then
      syntheticBeats corrected_bpm duration (3/5)
    else beats
  | .failure => []

/-! ## Verified properties -/

/-- C1 (counterexample): with the chord spelled `"Am"` — a name outside
`NOTE_NAMES` — the root lookup falls back to index 0 (C), so the third and
seventh numerals are `I`, not `vi`, and the pattern `"I-V-vi-IV"` is not
reported. -/
theorem c1_scenario_a_counterexample :
    (analyzeHarmonicProgression
      [⟨"C", 0, 1, 7/10⟩, ⟨"G", 1, 2, 7/10⟩, ⟨"Am", 2, 3, 7/10⟩, ⟨"F", 3, 4, 7/10⟩,
       ⟨"C", 4, 5, 7/10⟩, ⟨"G", 5, 6, 7/10⟩, ⟨"Am", 6, 7, 7/10⟩, ⟨"F", 7, 8, 7/10⟩]
      "C major" 120).map (fun h => h.roman_numerals.map (fun r => r.roman_numeral)) =
      some ["I", "V", "I", "IV", "I", "V", "I", "IV"] ∧
    (analyzeHarmonicProgression
      [⟨"C", 0, 1, 7/10⟩, ⟨"G", 1, 2, 7/10⟩, ⟨"Am", 2, 3, 7/10⟩, ⟨"F", 3, 4, 7/10⟩,
       ⟨"C", 4, 5, 7/10⟩, ⟨"G", 5, 6, 7/10⟩, ⟨"Am", 6, 7, 7/10⟩, ⟨"F", 7, 8, 7/10⟩]
      "C major" 120).map (fun h => decide ("I-V-vi-IV" ∈ h.common_patterns)) =
      some false := by
  constructor <;> decide

/-- C1 (amended): Scenario A holds once the minor chord is written with a
space-separated quality, `"A minor"`, whose first word is the root the
parser extracts: the Roman numerals are `[I, V, vi, IV]` twice and
`"I-V-vi-IV"` is among the reported patterns. -/
theorem c1_scenario_a_amended :
    (analyzeHarmonicProgression
      [⟨"C", 0, 1, 7/10⟩, ⟨"G", 1, 2, 7/10⟩, ⟨"A minor", 2, 3, 7/10⟩, ⟨"F", 3, 4, 7/10⟩,
       ⟨"C", 4, 5, 7/10⟩, ⟨"G", 5, 6, 7/10⟩, ⟨"A minor", 6, 7, 7/10⟩, ⟨"F", 7, 8, 7/10⟩]
      "C major" 120).map (fun h => h.roman_numerals.map (fun r => r.roman_numeral)) =
      some ["I", "V", "vi", "IV", "I", "V", "vi", "IV"] ∧
    (analyzeHarmonicProgression
      [⟨"C", 0, 1, 7/10⟩, ⟨"G", 1, 2, 7/10⟩, ⟨"A minor", 2, 3, 7/10⟩, ⟨"F", 3, 4, 7/10⟩,
       ⟨"C", 4, 5, 7/10⟩, ⟨"G", 5, 6, 7/10⟩, ⟨"A minor", 6, 7, 7/10⟩, ⟨"F", 7, 8, 7/10⟩]
      "C major" 120).map (fun h => decide ("I-V-vi-IV" ∈ h.common_patterns)) =
      some true := by
  constructor <;> decide

/-- The pattern-scoring fold only ever adds to the accumulator. -/
lemma le_patternFold (cp : List String) :
    ∀ (l : List String) (s : ℚ),
      s ≤ l.foldl (fun s pattern => if pattern ∈ cp then s + 3/10 else s) s := by
  intro l
  induction l with
  | nil => intro s; exact le_refl s
  | cons a t ih =>
    intro s
    refine le_trans ?_ (ih _)
    dsimp only
    split_ifs <;> linarith

/-- A genre score is a sum of nonnegative contributions. -/
lemma genreScoreOf_nonneg (inputs : GenreInputs) (instrumentation : List String)
    (conventions : GenreTemplate) : 0 ≤ genreScoreOf inputs instrumentation conventions := by
  unfold genreScoreOf
  dsimp only
  have hfold : 0 ≤ (match inputs.common_patterns with
      | some patterns =>
        patterns.foldl (fun s pattern =>
          if pattern ∈ conventions.common_progressions then s + 3/10 else s) 0
      | none => (0 : ℚ)) := by
    cases inputs.common_patterns with
    | none => exact le_refl 0
    | some patterns => exact le_patternFold _ patterns 0
  have hmatch : (0 : ℚ) ≤
      ((conventions.instrumentation.dedup.filter
          (fun i => i ∈ instrumentation.dedup)).length : ℚ) /
        ((conventions.instrumentation.dedup.length : ℚ)) :=
    div_nonneg (by positivity) (by positivity)
  split_ifs <;> linarith

/-- Inserting a zero-confidence score into an all-zero list keeps it in
front (descending insertion is stable). -/
lemma insertByConfidence_zero (a : GenreScore) (l : List GenreScore)
    (ha : a.confidence = 0) (hl : ∀ x ∈ l, x.confidence = 0) :
    insertByConfidence a l = a :: l := by
  cases l with
  | nil => rfl
  | cons b bs =>
    unfold insertByConfidence
    rw [hl b (List.mem_cons_self b bs), ha]
    simp

/-- Sorting an all-zero-confidence score list is the identity. -/
lemma sortByConfidenceDesc_zero (l : List GenreScore)
    (hl : ∀ x ∈ l, x.confidence = 0) : sortByConfidenceDesc l = l := by
  induction l with
  | nil => rfl
  | cons a t ih =>
    unfold sortByConfidenceDesc
    rw [ih (fun x hx => hl x (List.mem_cons_of_mem a hx))]
    exact insertByConfidence_zero a t (hl a (List.mem_cons_self a t))
      (fun x hx => hl x (List.mem_cons_of_mem a hx))

/-- When every template's raw score is 0, every ranked confidence is 0 and
the stable sort leaves the template order unchanged, so the primary genre
is the first template, `"pop"`. -/
lemma primary_genre_of_all_zero (inputs : GenreInputs) (instrumentation : List String)
    (h : ∀ t ∈ genrePatterns, genreScoreOf inputs instrumentation t = 0) :
    (detectGenreConventions inputs instrumentation).primary_genre = "pop" := by
  have hz : ∀ x ∈ genreScores inputs instrumentation, x.confidence = 0 := by
    intro x hx
    simp only [genreScores, List.mem_map] at hx
    obtain ⟨t, ht, rfl⟩ := hx
    show min (genreScoreOf inputs instrumentation t) 1 = 0
    rw [h t ht]
    norm_num [min_def]
  unfold detectGenreConventions
  dsimp only
  rw [sortByConfidenceDesc_zero _ hz]
  rfl

/-- With the all-empty inputs, no scoring rule fires for any template. -/
lemma genreScoreOf_emptyInputs (t : GenreTemplate) (ht : t ∈ genrePatterns) :
    genreScoreOf ⟨none, 0, 0⟩ [] t = 0 := by
  fin_cases ht <;>
    · simp only [genreScoreOf, List.dedup_nil, List.not_mem_nil]
      norm_num [List.dedup_eq_nil]
      rw [abs_of_nonneg (by norm_num)]
      norm_num

/-- C4 (counterexample): with empty inputs no scoring rule fires for any
template — every template's accumulated score is 0 — yet
`detect_genre_conventions` does not return `"unknown"`: the six fixed
templates make the ranked list non-empty, so the stable sort leaves the
first template, `"pop"`, on top. -/
theorem c4_unknown_counterexample :
    (∀ t ∈ genrePatterns, ¬ 0 < genreScoreOf ⟨none, 0, 0⟩ [] t) ∧
    (detectGenreConventions ⟨none, 0, 0⟩ []).primary_genre ≠ "unknown" := by
  constructor
  · intro t ht
    rw [genreScoreOf_emptyInputs t ht]
    norm_num
  · rw [primary_genre_of_all_zero _ _ genreScoreOf_emptyInputs]
    simp

/-- C4 (amended): whenever no genre template accumulates a score greater
than 0, `detect_genre_conventions` returns `primary_genre = "pop"` — the
first template in insertion order — because the fixed template set is
non-empty and the `"unknown"` branch requires an empty ranked list. -/
theorem c4_unknown_amended (inputs : GenreInputs) (instrumentation : List String)
    (h : ∀ t ∈ genrePatterns, ¬ 0 < genreScoreOf inputs instrumentation t) :
    (detectGenreConventions inputs instrumentation).primary_genre = "pop" :=
  primary_genre_of_all_zero inputs instrumentation (fun t ht =>
    le_antisymm (not_lt.mp (h t ht)) (genreScoreOf_nonneg inputs instrumentation t))

/-- C4 (witness): the amended theorem applied to the concrete all-zero
input of the counterexample. -/
theorem c4_unknown_amended_witness :
    (detectGenreConventions ⟨none, 0, 0⟩ []).primary_genre = "pop" :=
  c4_unknown_amended ⟨none, 0, 0⟩ [] (fun t ht => by
    rw [genreScoreOf_emptyInputs t ht]; norm_num)

/-- Every minor-table Roman numeral misses the major-key function table
(the lookup is case-sensitive), so the lookup falls to its `tonic`
default. -/
lemma majorFunctionOf_romanMinor (d : ℤ) : majorFunctionOf (romanMinor d) = "tonic" := by
  unfold romanMinor
  split_ifs <;> decide

/-- C9: for any chord list analysed under a key whose parsed mode is
`"minor"`, every functional-harmony entry is labelled `"tonic"`: the
minor-mode Roman numerals are all absent from the (case-sensitive)
major-key function table, so each falls to the tonic default. -/
theorem c9_minor_mode_all_tonic (chords : List ChordEvent) (key : String) (bpm : ℚ)
    (h : HarmonicAnalysis) (hmode : (parseKey key).2 = "minor")
    (hres : analyzeHarmonicProgression chords key bpm = some h) :
    h.functional_harmony.all (fun f => f.function == "tonic") = true := by
  unfold analyzeHarmonicProgression at hres
  split_ifs at hres
  injection hres with hres
  subst hres
  simp only [List.all_eq_true]
  intro f hf
  simp only [analyzeFunctionalHarmony, List.mem_map] at hf
  obtain ⟨rn, hrn, rfl⟩ := hf
  simp only [chordsToRomanNumerals, List.mem_map] at hrn
  obtain ⟨c, hc, rfl⟩ := hrn
  simp only [hmode]
  rw [if_neg (by decide)]
  simp [majorFunctionOf_romanMinor]

/-- C9 (witness): one C-major chord analysed in A minor gets function
`"tonic"`. -/
theorem c9_minor_mode_all_tonic_witness :
    ((analyzeHarmonicProgression [⟨"C", 0, 1, 7/10⟩] "A minor" 120).map
      (fun h => h.functional_harmony.all (fun f => f.function == "tonic"))) = some true := by
  have hex : ∃ h, analyzeHarmonicProgression [⟨"C", 0, 1, 7/10⟩] "A minor" 120 = some h := by
    unfold analyzeHarmonicProgression
    rw [if_neg (by simp), if_neg (by norm_num)]
    exact ⟨_, rfl⟩
  obtain ⟨h, hh⟩ := hex
  rw [hh]
  exact congrArg some (c9_minor_mode_all_tonic _ _ _ _ (by decide) hh)

/-- The syncopation index is clamped to at most 1. -/
lemma calculateSyncopation_le_one (beats : List Beat) (bpm : ℚ) :
    calculateSyncopation beats bpm ≤ 1 := by
  unfold calculateSyncopation
  split_ifs
  · norm_num
  · exact min_le_right _ _

/-- The two surviving complexity contributions total at most
`2/5 + 3/10 = 7/10`. -/
lemma complexity_sum_bound (s m : ℚ) (hs : s ≤ 1) (hm : m ≤ 1) :
    min (0 + s * (2/5) + m * (3/10)) 1 ≤ 7/10 := by
  refine le_trans (min_le_left _ _) ?_
  linarith

/-- C10: whenever `analyze_rhythmic_complexity` produces a result, the
polyrhythm stub reports `False`, so the complexity score is
`0.4·syncopation + 0.3·min(note_density/10, 1)`, bounded by 0.7. -/
theorem c10_complexity_le (beats : List Beat) (bpm duration : ℚ) (r : RhythmicAnalysis)
    (hres : analyzeRhythmicComplexity beats bpm duration = some r) :
    r.polyrhythms_detected = false ∧ r.complexity_score ≤ 7/10 := by
  unfold analyzeRhythmicComplexity at hres
  split_ifs at hres
  all_goals
    injection hres with hres
    subst hres
    refine ⟨rfl, ?_⟩
    show calculateRhythmicComplexity _ _ (detectPolyrhythms beats) ≤ 7/10
    unfold calculateRhythmicComplexity detectPolyrhythms
    dsimp only
    rw [if_neg (by simp)]
    exact complexity_sum_bound _ _ (calculateSyncopation_le_one beats bpm) (min_le_right _ _)

/-- C10 (witness): a single on-beat beat at 120 bpm over one second gives
a complexity score within the bound. -/
theorem c10_complexity_le_witness :
    ((analyzeRhythmicComplexity [⟨0, 1, 4/5⟩] 120 1).map
      (fun r => decide (r.complexity_score ≤ 7/10) && !r.polyrhythms_detected)) = some true := by
  have hex : ∃ r, analyzeRhythmicComplexity [⟨0, 1, 4/5⟩] 120 1 = some r := by
    unfold analyzeRhythmicComplexity
    rw [if_neg (by simp)]
    exact ⟨_, rfl⟩
  obtain ⟨r, hr⟩ := hex
  rw [hr]
  have h := c10_complexity_le _ _ _ _ hr
  simp [h.1, decide_eq_true h.2]

/-- C8: whenever `analyze_harmonic_progression` succeeds, the Roman
numeral list has exactly one entry per input chord, and each entry copies
the start and end time of its source chord. -/
theorem c8_roman_numerals_one_per_chord (chords : List ChordEvent) (key : String)
    (bpm : ℚ) (h : HarmonicAnalysis)
    (hres : analyzeHarmonicProgression chords key bpm = some h) :
    h.roman_numerals.length = chords.length ∧
    ∀ i : ℕ,
      (h.roman_numerals[i]?).map RomanNumeralEvent.start_time =
        (chords[i]?).map ChordEvent.start_time ∧
      (h.roman_numerals[i]?).map RomanNumeralEvent.end_time =
        (chords[i]?).map ChordEvent.end_time := by
  unfold analyzeHarmonicProgression at hres
  split_ifs at hres
  injection hres with hres
  subst hres
  show (chordsToRomanNumerals chords _ _).length = chords.length ∧ _
  unfold chordsToRomanNumerals
  refine ⟨List.length_map _ _, fun i => ?_⟩
  rw [List.getElem?_map]
  cases chords[i]? <;> simp

/-- C8 (witness): a single chord yields a single Roman numeral event with
the chord's timing. -/
theorem c8_roman_numerals_one_per_chord_witness :
    ((analyzeHarmonicProgression [⟨"C", 0, 1, 7/10⟩] "C major" 120).map
      (fun h => decide (h.roman_numerals.length = 1))) = some true ∧
    ((analyzeHarmonicProgression [⟨"C", 0, 1, 7/10⟩] "C major" 120).map
      (fun h => ((h.roman_numerals[0]?).map RomanNumeralEvent.start_time,
                 (h.roman_numerals[0]?).map RomanNumeralEvent.end_time))) =
      some (some 0, some 1) := by
  have hex : ∃ h, analyzeHarmonicProgression [⟨"C", 0, 1, 7/10⟩] "C major" 120 = some h := by
    unfold analyzeHarmonicProgression
    rw [if_neg (by simp), if_neg (by norm_num)]
    exact ⟨_, rfl⟩
  obtain ⟨h, hh⟩ := hex
  have hc := c8_roman_numerals_one_per_chord _ _ _ _ hh
  rw [hh]
  refine ⟨?_, ?_⟩
  · simp [hc.1]
  · have h0 := hc.2 0
    simp only [Option.map_some']
    rw [h0.1, h0.2]
    rfl

/-- The cadence classification exactly as claim C5 states it: authentic
(V→I, 1.0), plagal (IV→I, 0.8), deceptive (V→vi, 0.6), half (any→V, 0.5),
tried in that priority order, recording the start time of the second
chord. -/
def claimCadences (roman_numerals : List RomanNumeralEvent) : List Cadence :=
  (adjacentPairs roman_numerals).filterMap (fun p =>
    let current := p.1.roman_numeral
    let next_chord := p.2.roman_numeral
    if current = "V" ∧ next_chord = "I" then
      some { type := "authentic", progression := current ++ "-" ++ next_chord
             time := p.2.start_time, strength := 1 }
    else if current = "IV" ∧ next_chord = "I" then
      some { type := "plagal", progression := current ++ "-" ++ next_chord
             time := p.2.start_time, strength := 4/5 }
    else if current = "V" ∧ next_chord = "vi" then
      some { type := "deceptive", progression := current ++ "-" ++ next_chord
             time := p.2.start_time, strength := 3/5 }
    else if next_chord = "V" then
      some { type := "half", progression := current ++ "-" ++ next_chord
             time := p.2.start_time, strength := 1/2 }
    else none)

/-- C5: the source's cadence detection (which tests half before deceptive)
agrees with the claim's priority order on every input — the four
conditions are pairwise disjoint — and records the stated strengths and
the second chord's start time. -/
theorem c5_cadence_classification (roman_numerals : List RomanNumeralEvent) :
    detectCadences roman_numerals = claimCadences roman_numerals := by
  unfold detectCadences claimCadences
  congr 1
  funext p
  unfold classifyCadence calculateCadenceStrength
  dsimp only
  split_ifs <;> simp_all

/-- Rounding to two decimals keeps a value of [60, 180] inside
[60, 180]: the endpoints are two-decimal grid points. -/
lemma pyRound2_mem (x : ℚ) (h1 : 60 ≤ x) (h2 : x ≤ 180) :
    60 ≤ pyRound2 x ∧ pyRound2 x ≤ 180 := by
  unfold pyRound2
  have hl : (6000 : ℤ) ≤ round (x * 100) := by
    rw [round_eq]
    have h : (6000 : ℤ) = ⌊(6000 : ℚ) + 1/2⌋ := by norm_num
    rw [h]
    exact Int.floor_mono (by linarith)
  have hr : round (x * 100) ≤ (18000 : ℤ) := by
    rw [round_eq]
    have h : (18000 : ℤ) = ⌊(18000 : ℚ) + 1/2⌋ := by norm_num
    rw [h]
    exact Int.floor_mono (by linarith)
  have hl2 : (6000 : ℚ) ≤ ((round (x * 100) : ℤ) : ℚ) := by exact_mod_cast hl
  have hr2 : ((round (x * 100) : ℤ) : ℚ) ≤ 18000 := by exact_mod_cast hr
  constructor <;> linarith

/-- The final sanity clamp lands in [60, 180]. -/
lemma clampTempo_mem (x : ℚ) : 60 ≤ clampTempo x ∧ clampTempo x ≤ 180 := by
  unfold clampTempo
  split_ifs with h
  · norm_num
  · push_neg at h
    exact ⟨h.1, h.2⟩

/-- C2: for every outcome of the tempo primitives — timeout of either
bounded call, a raised exception, or any candidate list (including the
empty one, whose indexing raises) — the extracted bpm lies in [60, 180]. -/
theorem c2_tempo_in_range (o : TempoOutcome) :
    60 ≤ extractTempo o ∧ extractTempo o ≤ 180 := by
  cases o with
  | onsetTimeout => norm_num [extractTempo]
  | candidatesTimeout => norm_num [extractTempo]
  | failure => norm_num [extractTempo]
  | candidates ts =>
    cases hsel : selectTempo ts with
    | none => simp only [extractTempo, hsel]; norm_num
    | some bpm =>
      simp only [extractTempo, hsel]
      exact pyRound2_mem _ (clampTempo_mem (octaveCorrect bpm)).1
        (clampTempo_mem (octaveCorrect bpm)).2

/-- C6: when candidate selection yields a raw tempo of 184, octave
correction halves it to 92, which lies in [60, 140] and is accepted, and
the final extracted bpm is 92. -/
theorem c6_octave_halving (ts : List ℚ) (hsel : selectTempo ts = some 184) :
    octaveCorrect 184 = 92 ∧ (60 : ℚ) ≤ 92 ∧ (92 : ℚ) ≤ 140 ∧
    extractTempo (.candidates ts) = 92 := by
  have hoc : octaveCorrect (184 : ℚ) = 92 := by norm_num [octaveCorrect]
  refine ⟨hoc, by norm_num, by norm_num, ?_⟩
  simp only [extractTempo, hsel]
  rw [hoc]
  norm_num [clampTempo, pyRound2, round_eq]

/-- C6 (witness): the single-candidate list `[184]`. -/
theorem c6_octave_halving_witness :
    octaveCorrect 184 = 92 ∧ (60 : ℚ) ≤ 92 ∧ (92 : ℚ) ≤ 140 ∧
    extractTempo (.candidates [184]) = 92 :=
  c6_octave_halving [184] rfl

/-- One adjacent pair per list element but the last. -/
lemma adjacentPairs_length : ∀ (l : List α), (adjacentPairs l).length = l.length - 1
  | [] => rfl
  | [_] => rfl
  | _ :: b :: rest => by
    show (adjacentPairs (b :: rest)).length + 1 = _
    rw [adjacentPairs_length (b :: rest)]
    simp

/-- Indexing the adjacent-pair list pairs up consecutive elements. -/
lemma adjacentPairs_getElem? (l : List α) (i : ℕ) :
    (adjacentPairs l)[i]? = (l[i]?).bind (fun a => (l[i + 1]?).map (fun b => (a, b))) := by
  induction l generalizing i with
  | nil => simp [adjacentPairs]
  | cons a t ih =>
    cases t with
    | nil =>
      cases i <;> simp [adjacentPairs]
    | cons b r =>
      cases i with
      | zero => simp [adjacentPairs]
      | succ j => simpa [adjacentPairs] using ih j

/-- Indexing the section-building loop. -/
lemma sectionsFromBounds_getElem? (bt : List ℚ) (conf : ℚ) (i : ℕ) :
    (sectionsFromBounds bt conf)[i]? = ((adjacentPairs bt)[i]?).map
      (fun p => ⟨SECTION_LABELS.getD i "section", p.1, p.2, conf⟩) := by
  unfold sectionsFromBounds
  rw [List.getElem?_map, List.getElem?_enum]
  cases (adjacentPairs bt)[i]? <;> simp

/-- The timeout fallback always returns `sectionCount` sections. -/
lemma extractSections_timeout_length (d : ℚ) :
    (extractSections .timeout d).length = (sectionCount d).toNat := by
  show (sectionsFromBounds (fallbackBoundTimes d (sectionCount d)) (1/2)).length = _
  unfold sectionsFromBounds fallbackBoundTimes
  rw [List.length_map, List.enum_length, adjacentPairs_length, List.length_map,
    List.length_range]
  simp

/-- C3 (counterexample): at duration 106 the code picks
`k = clamp(int(106/30), 3, 6) = 3` — `int` truncates — while the claimed
formula `clamp(round(106/30), 3, 6)` gives 4, so the fallback does not
return "exactly k" sections for the claimed k. -/
theorem c3_section_count_counterexample :
    (extractSections .timeout 106).length = 3 ∧
    min 6 (max 3 (round ((106 : ℚ) / 30))) = (4 : ℤ) := by
  constructor
  · rw [extractSections_timeout_length]
    norm_num [sectionCount, pyInt]
    decide
  · norm_num [round_eq]

/-- C3 (amended): for every positive duration `d` the code picks
`k = clamp(⌊d/30⌋, 3, 6)` (floor, not round), and on clustering timeout
returns exactly `k` contiguous sections of equal length `d/k` covering
`[0, d]`, each with confidence 0.5. -/
theorem c3_section_fallback (d : ℚ) (hd : 0 < d) :
    sectionCount d = min 6 (max 3 ⌊d / 30⌋) ∧
    3 ≤ sectionCount d ∧ sectionCount d ≤ 6 ∧
    (extractSections .timeout d).length = (sectionCount d).toNat ∧
    ∀ i : ℕ, i < (sectionCount d).toNat →
      (extractSections .timeout d)[i]? =
        some ⟨SECTION_LABELS.getD i "section",
              (i : ℚ) * (d / ((sectionCount d : ℤ) : ℚ)),
              ((i : ℚ) + 1) * (d / ((sectionCount d : ℤ) : ℚ)), 1/2⟩ := by
  have hfloor : sectionCount d = min 6 (max 3 ⌊d / 30⌋) := by
    unfold sectionCount pyInt
    rw [if_neg (by push_neg; positivity)]
  refine ⟨hfloor, le_min (by norm_num) (le_max_left 3 _), min_le_left 6 _,
    extractSections_timeout_length d, fun i hi => ?_⟩
  show (sectionsFromBounds (fallbackBoundTimes d (sectionCount d)) (1/2))[i]? = _
  rw [sectionsFromBounds_getElem?, adjacentPairs_getElem?]
  unfold fallbackBoundTimes
  rw [List.getElem?_map, List.getElem?_range (by omega),
    List.getElem?_map, List.getElem?_range (by omega)]
  simp only [Option.map_some', Option.some_bind]
  push_cast
  ring_nf

/-- C3 (witness): a 180-second signal yields 6 fallback sections; the
third covers [60, 90] with confidence 0.5. -/
theorem c3_section_fallback_witness :
    (extractSections .timeout 180).length = 6 ∧
    (extractSections .timeout 180)[2]? = some ⟨"chorus", 60, 90, 1/2⟩ := by
  have h := c3_section_fallback 180 (by norm_num)
  have hk : sectionCount 180 = 6 := by
    rw [h.1]
    norm_num
  refine ⟨?_, ?_⟩
  · rw [h.2.2.2.1, hk]
    rfl
  · have h2 := h.2.2.2.2 2 (by rw [hk]; norm_num)
    rw [h2, hk]
    norm_num [SECTION_LABELS]

/-- Every element the synthetic-beat loop emits lies on the arithmetic
grid: the `k`-th element from state `(t, p)` is
`⟨t + k·interval, p + k, conf⟩`. -/
lemma synthBeatsAux_getElem? (itv d conf : ℚ) :
    ∀ (fuel : ℕ) (t : ℚ) (p i : ℕ),
      i < (synthBeatsAux itv d conf fuel t p).length →
      (synthBeatsAux itv d conf fuel t p)[i]? = some ⟨t + i * itv, p + i, conf⟩ := by
  intro fuel
  induction fuel with
  | zero =>
    intro t p i h
    simp [synthBeatsAux] at h
  | succ n ih =>
    intro t p i h
    rw [synthBeatsAux] at h ⊢
    by_cases hc : t < d
    · rw [if_pos hc] at h ⊢
      cases i with
      | zero => simp
      | succ j =>
        have hj : j < (synthBeatsAux itv d conf n (t + itv) (p + 1)).length := by
          simpa using h
        rw [List.getElem?_cons_succ, ih (t + itv) (p + 1) j hj]
        simp only [Option.some.injEq, Beat.mk.injEq]
        refine ⟨by push_cast; ring, by omega, trivial⟩
    · rw [if_neg hc] at h
      simp at h

/-- C7: if either the onset-envelope computation or the beat-tracking call
of `_extract_beats` times out, every returned beat is on the synthetic
grid: the `i`-th beat has time `i · 60/bpm` (starting at 0), position
`i + 1`, and confidence 0.5, where bpm is the corrected tempo. -/
theorem c7_beat_timeout_grid (t : TempoOutcome) (b : BeatOutcome) (d : ℚ)
    (hb : b = .onsetTimeout ∨ b = .trackTimeout) (i : ℕ)
    (h : i < (extractBeats t b d).length) :
    (extractBeats t b d)[i]? =
      some ⟨(i : ℚ) * (60 / extractTempo t), i + 1, 1/2⟩ := by
  rcases hb with rfl | rfl <;>
  · simp only [extractBeats] at h ⊢
    unfold syntheticBeats at h ⊢
    rw [synthBeatsAux_getElem? _ _ _ _ _ _ _ h]
    simp [Nat.add_comm]

/-- C7 (witness): an onset-envelope timeout for a 2-second signal (default
tempo 120) puts the second beat at time 1/2 with position 2 and
confidence 0.5. -/
theorem c7_beat_timeout_grid_witness :
    (extractBeats .onsetTimeout .onsetTimeout 2)[1]? =
      some ⟨((1 : ℕ) : ℚ) * (60 / extractTempo .onsetTimeout), 1 + 1, 1/2⟩ := by
  have hlen : 1 < (extractBeats .onsetTimeout .onsetTimeout 2).length := by
    norm_num [extractBeats, extractTempo, syntheticBeats, synthBeatsAux]
  exact c7_beat_timeout_grid .onsetTimeout .onsetTimeout 2 (Or.inl rfl) 1 hlen

end DirectAI
